import Mathlib

/-!
Verification of the tabular-data preprocessing pipeline from
`prep_data/tabular_data/train_featurize_train_tabular_data.ipynb`.

The notebook's own transformation logic is embedded shallowly below:
a `DataFrame` models a pandas frame with named numeric columns, and the
notebook's functions (`remove_features`, the ranked-importance sort, the
train/validation/test split calls, the label-first CSV serialization and the
two importance-scoring cells) are translated definition by definition from
the source.  External library calls (pandas `drop`, sklearn
`train_test_split`, `make_regression`, the XGBoost / k-NN fits) are modelled
by their documented contracts, with any randomness they draw made an
explicit argument.
-/

/-- A pandas DataFrame of numeric values: an ordered list of named columns
and a list of rows, each row listing the values in column order.
Cell values are modelled as rationals. -/
structure DataFrame where
  columns : List String
  rows : List (List ℚ)
deriving DecidableEq, Repr

/-- pandas `DataFrame.drop(labels, axis=1)` (default `errors="raise"`):
returns a NEW frame without the named columns, raising `KeyError` if any
requested label is not an existing column.  The input frame is not
mutated. -/
def dataDrop (d : DataFrame) (labels : List String) : Except String DataFrame :=
  if labels.all (fun l => d.columns.contains l) then
    Except.ok
      { columns := d.columns.filter (fun c => !labels.contains c)
        rows := d.rows.map (fun r =>
          ((d.columns.zip r).filter (fun p => !labels.contains p.1)).map (fun p => p.2)) }
  else Except.error "KeyError"

/-- The list `features_to_remove` built by the loop inside
`remove_features`: the names among `zip(data.columns, lst)` whose score is
`<= threshold`. -/
def featuresToRemove (lst : List ℚ) (data : DataFrame) (threshold : ℚ) : List String :=
  ((data.columns.zip lst).filter (fun pair => pair.2 ≤ threshold)).map (fun pair => pair.1)

/-- The notebook's `remove_features(lst, data, threshold)`.  It builds
`features_to_remove`, and when that list is nonempty evaluates
`data.drop(features_to_remove, axis=1)` WITHOUT assigning the result
(`inplace` defaults to `False`), so the dropped frame is discarded.  The
function returns `None` in Python; here we return the post-call state of the
`data` argument (propagating any exception the `drop` call would raise). -/
def remove_features (lst : List ℚ) (data : DataFrame) (threshold : ℚ) :
    Except String DataFrame :=
  let toRemove := featuresToRemove lst data threshold
  if toRemove.isEmpty then Except.ok data
  else
    match dataDrop data toRemove with
    | Except.ok _ => Except.ok data
    | Except.error e => Except.error e

/-- Stable descending insertion step: `x` is placed before the first element
whose score is not strictly greater than `x`'s.  Together with
`sortDescStable` this models Python's `sorted(lst, key=lambda t: t[1],
reverse=True)`, which is a stable sort: for equal scores the earlier element
of the input stays earlier in the output. -/
def insertDesc (x : String × ℚ) : List (String × ℚ) → List (String × ℚ)
  | [] => [x]
  | y :: ys => if x.2 < y.2 then y :: insertDesc x ys else x :: y :: ys

/-- Stable sort by score descending; models Python's
`sorted(lst, key=lambda t: t[1], reverse=True)`. -/
def sortDescStable : List (String × ℚ) → List (String × ℚ)
  | [] => []
  | x :: xs => insertDesc x (sortDescStable xs)

/-- The `ranked_lst` computed inside `show_ranked_feature_importance_list`:
`lst = list(zip(data.columns, scores))` sorted by score descending with
Python's stable `sorted`. -/
def ranked_lst (scores : List ℚ) (data : DataFrame) : List (String × ℚ) :=
  sortDescStable (data.columns.zip scores)

/-- sklearn's test-set size for `test_size=0.33` on `n` rows:
`n_test = ceil(0.33 * n)` (with `train_size=None` the train side receives
the remaining `n - n_test` rows). -/
def nTestCeil (n : Nat) : Nat := (33 * n + 99) / 100

/-- `sklearn.model_selection.train_test_split` modelled by its documented
contract: the rows are shuffled by a random permutation, the first `nTest`
rows of the shuffled order form the test set and the remaining rows form the
train set.  The shuffled order is the explicit `shuffled` argument (the
random draw); the function returns `(train, test)`.  The notebook splits
`X` and `Y` with one call, so a list element stands for a whole aligned row
(features together with its label). -/
def train_test_split (shuffled : List α) (nTest : Nat) : List α × List α :=
  (shuffled.drop nTest, shuffled.take nTest)

/-- The keyword arguments of a `train_test_split` call site. -/
structure TrainTestSplitCall where
  test_size : ℚ
  random_state : Option Nat
deriving DecidableEq, Repr

/-- First split call of the notebook:
`train_test_split(X, Y, test_size=0.33)` — no `random_state` is passed, so
sklearn's default `None` applies. -/
def notebookSplitCall1 : TrainTestSplitCall :=
  { test_size := 33 / 100, random_state := Option.none }

/-- Second split call of the notebook:
`train_test_split(X_train, Y_train, test_size=0.33)` — again without
`random_state`. -/
def notebookSplitCall2 : TrainTestSplitCall :=
  { test_size := 33 / 100, random_state := Option.none }

/-- Join cells with a separator character; models the comma-joining that
pandas `to_csv` performs per row. -/
def joinSep (sep : Char) : List (List Char) → List Char
  | [] => []
  | [c] => c
  | c :: cs => c ++ sep :: joinSep sep cs

/-- Split a character list at every occurrence of the separator; models a
CSV reader splitting one line into its cells. -/
def splitSep (sep : Char) : List Char → List (List Char)
  | [] => [[]]
  | c :: cs =>
    if c = sep then [] :: splitSep sep cs
    else
      match splitSep sep cs with
      | [] => [[c]]
      | t :: ts => (c :: t) :: ts

/-- The notebook's serialization
`pd.concat([Y, X], axis=1).to_csv(path, header=False, index=False)`:
one line per row, each line the label value followed by the feature values
in column order, comma-separated; `header=False` means no header line and
`index=False` means no index column.  `render` abstracts pandas' numeral
formatting for one cell. -/
def to_csv (render : ℚ → List Char) (labels : List ℚ) (X : DataFrame) :
    List (List Char) :=
  List.zipWith (fun y r => joinSep ',' (render y :: r.map render)) labels X.rows

/-- Parse serialized lines back: split each line on commas and decode each
cell, under the label-first convention (first cell of a line is the label). -/
def parseCsvLines (decode : List Char → Option ℚ) (lines : List (List Char)) :
    List (List (Option ℚ)) :=
  lines.map (fun line => (splitSep ',' line).map decode)

/-- The keyword arguments of a `make_regression` call. -/
structure RegressionSpec where
  n_samples : Nat
  n_features : Nat
  n_informative : Nat
  random_state : Nat
deriving DecidableEq, Repr

/-- The arguments both scoring cells pass to `make_regression`:
`n_samples=X_train.shape[0], n_features=X_train.shape[1], n_informative=10,
random_state=1`.  This is the ONLY data the fitted scoring models ever see:
the synthetic `(X_data, y_label)` pair is a deterministic function of these
arguments (the generator is seeded with `random_state=1`), and the real
values and labels of the training split never reach the fit. -/
def makeRegressionArgs (X : DataFrame) : RegressionSpec :=
  { n_samples := X.rows.length
    n_features := X.columns.length
    n_informative := 10
    random_state := 1 }

/-- The notebook's `feature_importances_xgboost`:
`XGBRegressor().fit(*make_regression(args)).feature_importances_`.
`fitImp` abstracts the composition of the seeded synthetic-data generator
with the XGBoost fit and importance extraction, a deterministic function of
the `make_regression` arguments, which are all the pipeline supplies. -/
def feature_importances_xgboost (fitImp : RegressionSpec → List ℚ)
    (X : DataFrame) : List ℚ :=
  fitImp (makeRegressionArgs X)

/-- The notebook's `feature_importances_permutations`:
`permutation_importance(KNeighborsRegressor().fit(*make_regression(args)),
X_data, y_label, scoring="neg_mean_squared_error").importances_mean`.
`permImp` abstracts the k-NN fit plus the permutation-importance
computation; `rng` is the unseeded shuffle randomness that
`permutation_importance` draws (its `random_state` is left at `None`). -/
def feature_importances_permutations (permImp : RegressionSpec → Nat → List ℚ)
    (rng : Nat) (X : DataFrame) : List ℚ :=
  permImp (makeRegressionArgs X) rng

/-- Concrete training frame used as an evaluation input. -/
def exampleTrainA : DataFrame :=
  { columns := ["f1", "f2"], rows := [[1, 2], [3, 4]] }

/-- A second frame with the same shape as `exampleTrainA` but different
values. -/
def exampleTrainB : DataFrame :=
  { columns := ["f1", "f2"], rows := [[5, 6], [7, 8]] }

/-- The notebook's running pruning example: features `a`, `b`, `c` with
importance scores `0.5`, `0.01`, `0.2`. -/
def exampleABC : DataFrame :=
  { columns := ["a", "b", "c"], rows := [[1, 2, 3]] }

/-- The scores `{a: 0.5, b: 0.01, c: 0.2}` in column order (written as
`mkRat` fractions: `1/2`, `1/100`, `1/5`). -/
def exampleScoresABC : List ℚ := [mkRat 1 2, mkRat 1 100, mkRat 1 5]

/-- The notebook's default pruning threshold `0.01`. -/
def exampleThreshold : ℚ := mkRat 1 100

/-- A constant importance backend used to evaluate the scorers concretely. -/
def constImp : RegressionSpec → List ℚ :=
  fun s => List.replicate s.n_features 1

/-- A constant permutation-importance backend used to evaluate the scorers
concretely. -/
def constPermImp : RegressionSpec → Nat → List ℚ :=
  fun s _ => List.replicate s.n_features 0

/-- A third frame aligned (same columns) with `exampleTrainA` and
`exampleTrainB`. -/
def exampleTrainC : DataFrame :=
  { columns := ["f1", "f2"], rows := [[9, 10]] }

/-- A small frame used to exercise the CSV serialization concretely. -/
def exampleCsvX : DataFrame :=
  { columns := ["a", "b"], rows := [[2, 3]] }

/-- A concrete cell formatter for the CSV round-trip evaluation. -/
def renderW : ℚ → List Char :=
  fun q => if q = 1 then ['1'] else if q = 2 then ['2']
           else if q = 3 then ['3'] else ['x']

/-- The concrete cell parser inverting `renderW` on the values used. -/
def decodeW : List Char → Option ℚ :=
  fun l => if l = ['1'] then some 1 else if l = ['2'] then some 2
           else if l = ['3'] then some 3 else Option.none

lemma featuresToRemove_subset (lst : List ℚ) (data : DataFrame) (t : ℚ) :
    ∀ c ∈ featuresToRemove lst data t, c ∈ data.columns := by
  intro c hc
  unfold featuresToRemove at hc
  rcases List.mem_map.mp hc with ⟨p, hp, hpc⟩
  have hmem : p ∈ data.columns.zip lst := (List.mem_filter.mp hp).1
  have := List.of_mem_zip hmem
  subst hpc
  exact this.1

lemma dataDrop_ok_of_subset (d : DataFrame) (labels : List String)
    (h : ∀ c ∈ labels, c ∈ d.columns) : ∃ e, dataDrop d labels = Except.ok e := by
  unfold dataDrop
  have hall : labels.all (fun l => d.columns.contains l) = true := by
    rw [List.all_eq_true]
    intro l hl
    exact List.elem_eq_true_of_mem (h l hl)
  rw [hall]
  exact ⟨_, rfl⟩

/-- `remove_features` always returns normally with the input frame
unchanged: the drop result is discarded and the labels dropped are always
existing columns, so no exception can be raised. -/
lemma remove_features_eq_ok (lst : List ℚ) (data : DataFrame) (t : ℚ) :
    remove_features lst data t = Except.ok data := by
  unfold remove_features
  by_cases hemp : (featuresToRemove lst data t).isEmpty
  · simp [hemp]
  · rcases dataDrop_ok_of_subset data (featuresToRemove lst data t)
      (featuresToRemove_subset lst data t) with ⟨e, he⟩
    simp [hemp, he]

lemma featuresToRemove_congr (lst : List ℚ) (t : ℚ) {d1 d2 : DataFrame}
    (h : d1.columns = d2.columns) :
    featuresToRemove lst d1 t = featuresToRemove lst d2 t := by
  unfold featuresToRemove
  rw [h]

lemma insertDesc_perm (x : String × ℚ) (l : List (String × ℚ)) :
    (insertDesc x l).Perm (x :: l) := by
  induction l with
  | nil => simp [insertDesc]
  | cons y ys ih =>
    unfold insertDesc
    by_cases hxy : x.2 < y.2
    · simp only [hxy, if_true]
      exact (ih.cons y).trans (List.Perm.swap x y ys)
    · simp [hxy]

lemma insertDesc_pairwise (x : String × ℚ) (l : List (String × ℚ))
    (h : l.Pairwise (fun a b => b.2 ≤ a.2)) :
    (insertDesc x l).Pairwise (fun a b => b.2 ≤ a.2) := by
  induction l with
  | nil => simp [insertDesc]
  | cons y ys ih =>
    rcases List.pairwise_cons.mp h with ⟨hy, hys⟩
    unfold insertDesc
    by_cases hxy : x.2 < y.2
    · simp only [hxy, if_true]
      refine List.pairwise_cons.mpr ⟨?_, ih hys⟩
      intro b hb
      rcases List.mem_cons.mp ((insertDesc_perm x ys).mem_iff.mp hb) with hb | hb
      · subst hb; exact le_of_lt hxy
      · exact hy b hb
    · simp only [hxy, if_false]
      refine List.pairwise_cons.mpr ⟨?_, h⟩
      intro b hb
      rcases List.mem_cons.mp hb with hb | hb
      · subst hb; exact le_of_not_lt hxy
      · exact le_trans (hy b hb) (le_of_not_lt hxy)

lemma insertDesc_filter (x : String × ℚ) (l : List (String × ℚ)) (s : ℚ) :
    (insertDesc x l).filter (fun p => decide (p.2 = s)) =
      if x.2 = s then x :: l.filter (fun p => decide (p.2 = s))
      else l.filter (fun p => decide (p.2 = s)) := by
  induction l with
  | nil =>
    by_cases hx : x.2 = s <;> simp [insertDesc, List.filter, hx]
  | cons y ys ih =>
    unfold insertDesc
    by_cases hxy : x.2 < y.2
    · simp only [hxy, if_true]
      by_cases hx : x.2 = s
      · have hy : ¬ y.2 = s := by
          intro hys
          exact absurd hxy (by rw [hx, hys]; exact lt_irrefl s)
        simp [List.filter_cons, hx, hy, ih]
      · by_cases hy : y.2 = s <;> simp [List.filter_cons, hx, hy, ih]
    · simp only [hxy, if_false]
      by_cases hx : x.2 = s <;> simp [List.filter_cons, hx]

lemma sortDescStable_perm (l : List (String × ℚ)) :
    (sortDescStable l).Perm l := by
  induction l with
  | nil => simp [sortDescStable]
  | cons x xs ih =>
    unfold sortDescStable
    exact (insertDesc_perm x (sortDescStable xs)).trans (ih.cons x)

lemma sortDescStable_pairwise (l : List (String × ℚ)) :
    (sortDescStable l).Pairwise (fun a b => b.2 ≤ a.2) := by
  induction l with
  | nil => simp [sortDescStable]
  | cons x xs ih =>
    unfold sortDescStable
    exact insertDesc_pairwise x (sortDescStable xs) ih

lemma sortDescStable_filter (l : List (String × ℚ)) (s : ℚ) :
    (sortDescStable l).filter (fun p => decide (p.2 = s)) =
      l.filter (fun p => decide (p.2 = s)) := by
  induction l with
  | nil => simp [sortDescStable]
  | cons x xs ih =>
    unfold sortDescStable
    rw [insertDesc_filter]
    by_cases hx : x.2 = s <;> simp [List.filter_cons, hx, ih]

/-- C4: the ranker returns the (feature, score) pairs sorted by score in
descending order; for equal scores the relative order is the original
column order (Python's `sorted` is stable), so the output is deterministic;
in particular features `A`, `B`, `C` with scores `0.5`, `0.5`, `0.2` rank as
`[A, B, C]`. -/
theorem c4_ranker_sorted_stable (scores : List ℚ) (data : DataFrame) :
    (ranked_lst scores data).Perm (data.columns.zip scores)
    ∧ (ranked_lst scores data).Pairwise (fun a b => b.2 ≤ a.2)
    ∧ (∀ s : ℚ, (ranked_lst scores data).filter (fun p => decide (p.2 = s))
        = (data.columns.zip scores).filter (fun p => decide (p.2 = s)))
    ∧ ranked_lst [mkRat 1 2, mkRat 1 2, mkRat 1 5]
          { columns := ["A", "B", "C"], rows := [] }
        = [("A", mkRat 1 2), ("B", mkRat 1 2), ("C", mkRat 1 5)] :=
  ⟨sortDescStable_perm _, sortDescStable_pairwise _,
   fun s => sortDescStable_filter _ s, by decide⟩

/-- C9: `remove_features` returns `None` and leaves the frame passed as
`data` unchanged — same columns in the same order and the same values —
because the result of `data.drop(features_to_remove, axis=1)` is
discarded. -/
theorem c9_remove_features_frame_unchanged (lst : List ℚ) (data : DataFrame)
    (t : ℚ) :
    ∃ r, remove_features lst data t = Except.ok r
      ∧ r.columns = data.columns ∧ r.rows = data.rows :=
  ⟨data, remove_features_eq_ok lst data t, rfl, rfl⟩

/-- C1 (evaluation at the failing input): with features `a`, `b`, `c`, scores
`0.5`, `0.01`, `0.2` and threshold `0.01`, the code computes
`features_to_remove = [b]` but returns with the dataset still holding all
three columns, because the `drop` result is discarded; the discarded drop
would have produced exactly the `{a, c}` frame the claim describes. -/
theorem c1_prune_noop_at_notebook_example :
    featuresToRemove exampleScoresABC exampleABC exampleThreshold = ["b"]
    ∧ remove_features exampleScoresABC exampleABC exampleThreshold
        = Except.ok exampleABC
    ∧ exampleABC.columns = ["a", "b", "c"]
    ∧ dataDrop exampleABC ["b"]
        = Except.ok { columns := ["a", "c"], rows := [[1, 3]] } :=
  ⟨by decide, remove_features_eq_ok _ _ _, rfl, rfl⟩

/-- C3: when the three aligned splits are pruned with one score list and
threshold, the computed removal list is the same for each dataset, every
call returns normally, and afterwards the three frames still carry identical
feature-name sequences. -/
theorem c3_prune_identical_across_datasets (lst : List ℚ) (t : ℚ)
    (d1 d2 d3 : DataFrame) (h12 : d1.columns = d2.columns)
    (h23 : d2.columns = d3.columns) :
    featuresToRemove lst d1 t = featuresToRemove lst d2 t
    ∧ featuresToRemove lst d2 t = featuresToRemove lst d3 t
    ∧ ∃ e1 e2 e3,
        remove_features lst d1 t = Except.ok e1
        ∧ remove_features lst d2 t = Except.ok e2
        ∧ remove_features lst d3 t = Except.ok e3
        ∧ e1.columns = e2.columns ∧ e2.columns = e3.columns :=
  ⟨featuresToRemove_congr lst t h12, featuresToRemove_congr lst t h23,
   d1, d2, d3, remove_features_eq_ok lst d1 t, remove_features_eq_ok lst d2 t,
   remove_features_eq_ok lst d3 t, h12, h23⟩

/-- Witness for C3 at a concrete aligned triple of frames. -/
theorem c3_prune_identical_across_datasets_witness :
    featuresToRemove [mkRat 1 2, mkRat 1 100] exampleTrainA exampleThreshold
        = featuresToRemove [mkRat 1 2, mkRat 1 100] exampleTrainB exampleThreshold
    ∧ featuresToRemove [mkRat 1 2, mkRat 1 100] exampleTrainB exampleThreshold
        = featuresToRemove [mkRat 1 2, mkRat 1 100] exampleTrainC exampleThreshold
    ∧ ∃ e1 e2 e3,
        remove_features [mkRat 1 2, mkRat 1 100] exampleTrainA exampleThreshold
          = Except.ok e1
        ∧ remove_features [mkRat 1 2, mkRat 1 100] exampleTrainB exampleThreshold
          = Except.ok e2
        ∧ remove_features [mkRat 1 2, mkRat 1 100] exampleTrainC exampleThreshold
          = Except.ok e3
        ∧ e1.columns = e2.columns ∧ e2.columns = e3.columns :=
  c3_prune_identical_across_datasets [mkRat 1 2, mkRat 1 100] exampleThreshold
    exampleTrainA exampleTrainB exampleTrainC rfl rfl

/-- C7 (counterexample): pruning two datasets whose feature-name sets differ
raises no `DataAlignmentError` — `remove_features` completes normally on
each frame (each is matched only against its own columns) and leaves both
unchanged. -/
theorem c7_misaligned_prune_no_error_cex :
    ({ columns := ["a", "b"], rows := [[1, 2]] } : DataFrame).columns ≠
      ({ columns := ["c"], rows := [[3]] } : DataFrame).columns
    ∧ remove_features [mkRat 1 100, 2]
        { columns := ["a", "b"], rows := [[1, 2]] } exampleThreshold
        = Except.ok { columns := ["a", "b"], rows := [[1, 2]] }
    ∧ remove_features [mkRat 1 100, 2]
        { columns := ["c"], rows := [[3]] } exampleThreshold
        = Except.ok { columns := ["c"], rows := [[3]] } :=
  ⟨by decide, remove_features_eq_ok _ _ _, remove_features_eq_ok _ _ _⟩

/-- C7 (amended): invoking the pruning step on ANY sequence of datasets —
aligned or not — raises no error at all: every call returns normally with
its dataset unchanged, since the result of the column drop is discarded and
the dropped labels always come from the frame's own columns. -/
theorem c7_prune_sequence_never_raises (lst : List ℚ) (t : ℚ)
    (ds : List DataFrame) :
    ds.map (fun d => remove_features lst d t) = ds.map Except.ok := by
  apply List.map_congr_left
  intro d _
  exact remove_features_eq_ok lst d t

/-- C5: with the randomness (the shuffled orders drawn by the two
`train_test_split` calls) made explicit, the three outputs have lengths
summing to the dataset's length, their concatenation is a permutation of the
dataset, and every row value occurs across the three subsets exactly as
often as in the dataset — so each row lands in exactly one subset. -/
theorem c5_split_partitions_rows {α : Type} [DecidableEq α]
    (D s1 s2 : List α) (h1 : s1.Perm D)
    (h2 : s2.Perm (train_test_split s1 (nTestCeil s1.length)).1) :
    (train_test_split s2 (nTestCeil s2.length)).1.length
      + (train_test_split s2 (nTestCeil s2.length)).2.length
      + (train_test_split s1 (nTestCeil s1.length)).2.length = D.length
    ∧ ((train_test_split s2 (nTestCeil s2.length)).1
        ++ (train_test_split s2 (nTestCeil s2.length)).2
        ++ (train_test_split s1 (nTestCeil s1.length)).2).Perm D
    ∧ ∀ r, (train_test_split s2 (nTestCeil s2.length)).1.count r
        + (train_test_split s2 (nTestCeil s2.length)).2.count r
        + (train_test_split s1 (nTestCeil s1.length)).2.count r
        = D.count r := by
  simp only [train_test_split] at h2 ⊢
  have e2 : (s2.drop (nTestCeil s2.length) ++ s2.take (nTestCeil s2.length)).Perm s2 := by
    have h := @List.perm_append_comm α
      (s2.drop (nTestCeil s2.length)) (s2.take (nTestCeil s2.length))
    rwa [List.take_append_drop] at h
  have e5 : (s1.drop (nTestCeil s1.length) ++ s1.take (nTestCeil s1.length)).Perm s1 := by
    have h := @List.perm_append_comm α
      (s1.drop (nTestCeil s1.length)) (s1.take (nTestCeil s1.length))
    rwa [List.take_append_drop] at h
  have key : ((s2.drop (nTestCeil s2.length) ++ s2.take (nTestCeil s2.length))
      ++ s1.take (nTestCeil s1.length)).Perm D :=
    (((e2.trans h2).append_right _).trans e5).trans h1
  refine ⟨?_, key, ?_⟩
  · have hlen := key.length_eq
    simpa [List.length_append, Nat.add_assoc] using hlen
  · intro r
    have hcount := key.count_eq r
    simpa [List.count_append, Nat.add_assoc] using hcount

/-- Witness for C5 on a concrete three-row dataset. -/
theorem c5_split_partitions_rows_witness :
    (train_test_split ([20, 10] : List ℕ) (nTestCeil 2)).1.length
      + (train_test_split ([20, 10] : List ℕ) (nTestCeil 2)).2.length
      + (train_test_split ([30, 10, 20] : List ℕ) (nTestCeil 3)).2.length = 3
    ∧ ((train_test_split ([20, 10] : List ℕ) (nTestCeil 2)).1
        ++ (train_test_split ([20, 10] : List ℕ) (nTestCeil 2)).2
        ++ (train_test_split ([30, 10, 20] : List ℕ) (nTestCeil 3)).2).Perm
        [10, 20, 30]
    ∧ (train_test_split ([20, 10] : List ℕ) (nTestCeil 2)).1.count 20
        + (train_test_split ([20, 10] : List ℕ) (nTestCeil 2)).2.count 20
        + (train_test_split ([30, 10, 20] : List ℕ) (nTestCeil 3)).2.count 20
        = ([10, 20, 30] : List ℕ).count 20 := by
  have H := @c5_split_partitions_rows ℕ _ [10, 20, 30] [30, 10, 20] [20, 10]
    (by decide) (by decide)
  exact ⟨H.1, H.2.1, H.2.2 20⟩

/-- C6 (counterexample): the notebook passes no `random_state` to
`train_test_split` (sklearn's default is `None`), and two admissible runs —
two different shuffled orders of the same two-row dataset — produce
different (train, test) outputs, so the split is not reproducible by a
seed. -/
theorem c6_split_not_seed_reproducible_cex :
    notebookSplitCall1.random_state = Option.none
    ∧ ([2, 1] : List ℕ).Perm [1, 2]
    ∧ train_test_split ([1, 2] : List ℕ) (nTestCeil 2)
        ≠ train_test_split [2, 1] (nTestCeil 2) :=
  ⟨rfl, by decide, by decide⟩

/-- C6 (amended): the split outputs are a function of the dataset order
actually drawn by the shuffle (two runs drawing the same shuffled order
produce identical outputs), but both notebook call sites leave
`random_state` at `None`, so no seed fixes that order across runs. -/
theorem c6_split_unseeded_deterministic_in_shuffle
    (s1 s2 : List ℕ) (n : Nat) (h : s1 = s2) :
    notebookSplitCall1.random_state = Option.none
    ∧ notebookSplitCall2.random_state = Option.none
    ∧ train_test_split s1 n = train_test_split s2 n :=
  ⟨rfl, rfl, by rw [h]⟩

/-- Witness for the amended C6 at a concrete shuffled order. -/
theorem c6_split_unseeded_deterministic_in_shuffle_witness :
    notebookSplitCall1.random_state = Option.none
    ∧ notebookSplitCall2.random_state = Option.none
    ∧ train_test_split ([1, 2] : List ℕ) 1 = train_test_split [1, 2] 1 :=
  c6_split_unseeded_deterministic_in_shuffle [1, 2] [1, 2] 1 rfl

lemma splitSep_no_sep (sep : Char) (c : List Char) (h : sep ∉ c) :
    splitSep sep c = [c] := by
  induction c with
  | nil => rfl
  | cons a as ih =>
    have ha : ¬ a = sep := by
      intro e
      exact h (by simp [e])
    unfold splitSep
    rw [if_neg ha, ih (fun hm => h (List.mem_cons_of_mem a hm))]

lemma splitSep_append (sep : Char) (c l : List Char) (h : sep ∉ c) :
    splitSep sep (c ++ sep :: l) = c :: splitSep sep l := by
  induction c with
  | nil =>
    show splitSep sep (sep :: l) = [] :: splitSep sep l
    simp [splitSep]
  | cons a as ih =>
    have ha : ¬ a = sep := by
      intro e
      exact h (by simp [e])
    show splitSep sep (a :: (as ++ sep :: l)) = (a :: as) :: splitSep sep l
    simp only [splitSep]
    rw [if_neg ha, ih (fun hm => h (List.mem_cons_of_mem a hm))]

lemma splitSep_joinSep (sep : Char) (cells : List (List Char))
    (hne : cells ≠ []) (h : ∀ c ∈ cells, sep ∉ c) :
    splitSep sep (joinSep sep cells) = cells := by
  induction cells with
  | nil => exact absurd rfl hne
  | cons c cs ih =>
    cases cs with
    | nil => exact splitSep_no_sep sep c (h c (List.mem_cons_self c []))
    | cons c2 rest =>
      have hjoin : joinSep sep (c :: c2 :: rest)
          = c ++ sep :: joinSep sep (c2 :: rest) := rfl
      rw [hjoin, splitSep_append sep c _ (h c (List.mem_cons_self c _)),
        ih (by simp) (fun x hx => h x (List.mem_cons_of_mem c hx))]

lemma to_csv_parse_aux (render : ℚ → List Char) (decode : List Char → Option ℚ)
    (ys : List ℚ) (rows : List (List ℚ))
    (hc : ∀ q, (q ∈ ys ∨ ∃ r ∈ rows, q ∈ r) → ',' ∉ render q)
    (hd : ∀ q, (q ∈ ys ∨ ∃ r ∈ rows, q ∈ r) → decode (render q) = some q) :
    (List.zipWith (fun y r => joinSep ',' (render y :: r.map render)) ys rows).map
        (fun line => (splitSep ',' line).map decode)
      = List.zipWith (fun y r => some y :: r.map some) ys rows := by
  induction ys generalizing rows with
  | nil => simp
  | cons y ys ih =>
    cases rows with
    | nil => simp
    | cons r rs =>
      have hsplit : splitSep ',' (joinSep ',' (render y :: r.map render))
          = render y :: r.map render := by
        apply splitSep_joinSep
        · simp
        · intro c hcmem
          rcases List.mem_cons.mp hcmem with hcy | hcr
          · subst hcy
            exact hc y (Or.inl (List.mem_cons_self y ys))
          · rcases List.mem_map.mp hcr with ⟨q, hq, hqc⟩
            subst hqc
            exact hc q (Or.inr ⟨r, List.mem_cons_self r rs, hq⟩)
      have hhead : (splitSep ',' (joinSep ',' (render y :: r.map render))).map decode
          = some y :: r.map some := by
        rw [hsplit]
        simp only [List.map_cons, List.map_map]
        rw [hd y (Or.inl (List.mem_cons_self y ys))]
        congr 1
        apply List.map_congr_left
        intro q hq
        exact hd q (Or.inr ⟨r, List.mem_cons_self r rs, hq⟩)
      have hcrest : ∀ q, (q ∈ ys ∨ ∃ w ∈ rs, q ∈ w) → ',' ∉ render q := by
        intro q hq
        refine hc q ?_
        rcases hq with hq | ⟨w, hw, hqw⟩
        · exact Or.inl (List.mem_cons_of_mem y hq)
        · exact Or.inr ⟨w, List.mem_cons_of_mem r hw, hqw⟩
      have hdrest : ∀ q, (q ∈ ys ∨ ∃ w ∈ rs, q ∈ w) → decode (render q) = some q := by
        intro q hq
        refine hd q ?_
        rcases hq with hq | ⟨w, hw, hqw⟩
        · exact Or.inl (List.mem_cons_of_mem y hq)
        · exact Or.inr ⟨w, List.mem_cons_of_mem r hw, hqw⟩
      simp only [List.zipWith_cons_cons, List.map_cons]
      rw [hhead, ih rs hcrest hdrest]

/-- C8: the serialized train/validation CSV has one line per row, each line
being the label value followed by the feature values in column order,
comma-separated and with no header line; parsing the lines back under the
label-first convention recovers values equal to the original dataset for all
rows and columns.  `render`/`decode` are the cell formatter and parser,
assumed comma-free and mutually inverse on the values present. -/
theorem c8_csv_label_first_roundtrip
    (render : ℚ → List Char) (decode : List Char → Option ℚ)
    (labels : List ℚ) (X : DataFrame)
    (hlen : labels.length = X.rows.length)
    (hc : ∀ q, (q ∈ labels ∨ ∃ r ∈ X.rows, q ∈ r) → ',' ∉ render q)
    (hd : ∀ q, (q ∈ labels ∨ ∃ r ∈ X.rows, q ∈ r) → decode (render q) = some q) :
    (to_csv render labels X).length = X.rows.length
    ∧ parseCsvLines decode (to_csv render labels X)
        = List.zipWith (fun y r => some y :: r.map some) labels X.rows := by
  constructor
  · unfold to_csv
    rw [List.length_zipWith, hlen, Nat.min_self]
  · unfold to_csv parseCsvLines
    exact to_csv_parse_aux render decode labels X.rows hc hd

/-- Witness for C8: label 1 with feature row `[2, 3]` serializes to the
line `1,2,3` and parses back to the original values. -/
theorem c8_csv_label_first_roundtrip_witness :
    (to_csv renderW [1] exampleCsvX).length = exampleCsvX.rows.length
    ∧ parseCsvLines decodeW (to_csv renderW [1] exampleCsvX)
        = [[some 1, some 2, some 3]] := by
  have H := c8_csv_label_first_roundtrip renderW decodeW [1] exampleCsvX rfl
    (by
      intro q hq
      have hval : q = 1 ∨ q = 2 ∨ q = 3 := by
        rcases hq with hq | ⟨r, hr, hqr⟩
        · left; simpa [exampleCsvX] using hq
        · have hr2 : r = [2, 3] := by simpa [exampleCsvX] using hr
          subst hr2
          right; simpa using hqr
      rcases hval with h | h | h <;> subst h <;> decide)
    (by
      intro q hq
      have hval : q = 1 ∨ q = 2 ∨ q = 3 := by
        rcases hq with hq | ⟨r, hr, hqr⟩
        · left; simpa [exampleCsvX] using hq
        · have hr2 : r = [2, 3] := by simpa [exampleCsvX] using hr
          subst hr2
          right; simpa using hqr
      rcases hval with h | h | h <;> subst h <;> decide)
  exact ⟨H.1, H.2.trans (by decide)⟩

/-- C2 (evaluation at the failing input): the entire input the scoring fit
receives is `makeRegressionArgs`, which coincides for two training frames
with the same shape but different values — the model is fitted on seeded
synthetic data, not on the training dataset's own (features, label)
pairs. -/
theorem c2_scorer_fit_input_ignores_data :
    makeRegressionArgs exampleTrainA = makeRegressionArgs exampleTrainB
    ∧ exampleTrainA.rows ≠ exampleTrainB.rows
    ∧ ∀ fitImp : RegressionSpec → List ℚ,
        feature_importances_xgboost fitImp exampleTrainA
          = feature_importances_xgboost fitImp exampleTrainB :=
  ⟨rfl, by decide, fun _ => rfl⟩

/-- C10: for both scoring approaches, with the run's ambient randomness and
library backend held fixed, the computed importance scores depend only on
the row and column counts of the training split: any two frames of equal
shape produce identical score lists, because the fitted model's only inputs
are generated by `make_regression` from the shape with `random_state=1`. -/
theorem c10_scores_depend_only_on_shape
    (fitImp : RegressionSpec → List ℚ) (permImp : RegressionSpec → Nat → List ℚ)
    (rng : Nat) (X1 X2 : DataFrame)
    (hr : X1.rows.length = X2.rows.length)
    (hc : X1.columns.length = X2.columns.length) :
    feature_importances_xgboost fitImp X1 = feature_importances_xgboost fitImp X2
    ∧ feature_importances_permutations permImp rng X1
        = feature_importances_permutations permImp rng X2 := by
  have hargs : makeRegressionArgs X1 = makeRegressionArgs X2 := by
    unfold makeRegressionArgs
    rw [hr, hc]
  constructor
  · unfold feature_importances_xgboost
    rw [hargs]
  · unfold feature_importances_permutations
    rw [hargs]

/-- Witness for C10 at two concrete equal-shape frames with different
values. -/
theorem c10_scores_depend_only_on_shape_witness :
    feature_importances_xgboost constImp exampleTrainA
      = feature_importances_xgboost constImp exampleTrainB
    ∧ feature_importances_permutations constPermImp 7 exampleTrainA
      = feature_importances_permutations constPermImp 7 exampleTrainB :=
  c10_scores_depend_only_on_shape constImp constPermImp 7
    exampleTrainA exampleTrainB rfl rfl
